import Mathlib

/-!
Verification of the Logbook API server (`apiserver/`): a shallow embedding
of the data model (`models.py`), the authentication decorators (`auth.py`)
and the HTTP handlers (`api/auth.py`, `api/users.py`, `api/posts.py`),
together with theorems settling the specification claims.

Conventions of the embedding:
* The persisted database is a `DB`: a list of scribe rows and entry rows.
  A handler is a function from the pre-state (plus the request data) to the
  response and the post-state; `db.session.commit()` is the point where the
  post-state is produced, and handler paths that return before a commit
  return the pre-state unchanged (uncommitted session mutations are
  discarded when the request's session is torn down).
* `datetime.utcnow()` is modelled by an explicit `now : Nat` argument;
  `isoformat() + "Z"` by `isoZ`, an injective rendering.
* The werkzeug password-hash primitives are out of scope of the repository
  (treated by the code as a black box); they are modelled as an opaque
  salted pair so that verification succeeds exactly on the hashed secret.
* Request JSON bodies are association lists of string fields (`JsonObj`);
  `None`/absent bodies are `Option.none`.  Python's `if not data:` is true
  for both `None` and the empty dict, captured by `dataEmpty`.
* SQLAlchemy's `onupdate=datetime.utcnow` emits a new `updated_at` only
  when the flushed row actually changed; commits below advance
  `updated_at` exactly when the row differs from the loaded one.
-/

namespace Logbook

/-- JSON attribute values appearing in resource projections. -/
inductive JVal where
  | str : String → JVal
  | num : Nat → JVal
  | nullv : JVal
deriving DecidableEq, Repr

/-- Modelled black box for werkzeug `generate_password_hash`: an opaque
string storing salt and secret together (`pbkdf2:sha256:260000$salt$hash`),
abstracted as a salt/secret pair. -/
structure PHash where
  salt : String
  secret : String
deriving DecidableEq, Repr

/-- Modelled black box for werkzeug `generate_password_hash` with a
caller-supplied fresh salt (the source generates a random 16-byte salt). -/
def generate_password_hash (salt : String) (password : String) : PHash :=
  ⟨salt, password⟩

/-- Modelled black box for werkzeug `check_password_hash`: verification
succeeds exactly when the offered plaintext matches the hashed secret. -/
def check_password_hash (h : PHash) (password : String) : Bool :=
  h.secret == password

/-- HTTP Basic credentials extracted from `request.authorization`. -/
structure Credentials where
  username : String
  password : String
deriving DecidableEq, Repr

/-- A row of the `scribes` table (`models.Scribe`). -/
structure Scribe where
  id : Nat
  username : String
  email : String
  password_hash : PHash
  bio : Option String
  created_at : Nat
  updated_at : Nat
deriving DecidableEq, Repr

/-- A row of the `entries` table (`models.Entry`). -/
structure Entry where
  id : Nat
  content : String
  visibility : String
  created_at : Nat
  updated_at : Nat
  scribe_id : Nat
deriving DecidableEq, Repr

/-- The persisted database state. -/
structure DB where
  scribes : List Scribe
  entries : List Entry
deriving DecidableEq, Repr

/-- `Scribe.check_password`: verify a plaintext against the stored hash. -/
def Scribe.check_password (s : Scribe) (password : String) : Bool :=
  check_password_hash s.password_hash password

/-- Rendering of `datetime.isoformat() + "Z"`; the timestamp value itself
is opaque to the API, only its rendering appears in responses. -/
def isoZ (t : Nat) : String :=
  toString t ++ "Z"

/-- One element of the JSON:API error envelope
`{"errors":[{"status","title","detail"}]}`. -/
structure ApiError where
  status : String
  title : String
  detail : String
deriving DecidableEq, Repr

/-- A JSON:API resource object `{type, id, attributes}`; attributes are an
ordered field list, mirroring the dict literals in `to_jsonapi`. -/
structure Resource where
  type : String
  id : String
  attributes : List (String × JVal)
deriving DecidableEq, Repr

/-- Response bodies produced by the handlers. -/
inductive Body where
  | errors : List ApiError → Body
  | dataObj : Resource → Body
  | dataList : List Resource → Body
  | noContent : Body
deriving DecidableEq, Repr

/-- An HTTP response: status code and JSON body. -/
structure Response where
  code : Nat
  body : Body
deriving DecidableEq, Repr

/-- `Scribe.to_jsonapi` from `models.py`: the public profile projection.
The attribute dict has exactly the five keys below and omits
`password_hash`. -/
def Scribe.to_jsonapi (s : Scribe) : Resource :=
  { type := "scribes"
    id := toString s.id
    attributes :=
      [("username", .str s.username),
       ("email", .str s.email),
       ("bio", match s.bio with | some b => .str b | none => .nullv),
       ("createdAt", .str (isoZ s.created_at)),
       ("updatedAt", .str (isoZ s.updated_at))] }

/-- Lookup backing the `entry.scribe` relationship (foreign key join). -/
def DB.getScribe (db : DB) (scribe_id : Nat) : Option Scribe :=
  db.scribes.find? (fun s => s.id == scribe_id)

/-- `Entry.to_jsonapi` from `models.py`.  `scribeUsername` reads
`self.scribe.username` through the relationship; on an integrity-violating
state (no such scribe, impossible per the referential invariant) the
source would raise, modelled as an empty username. -/
def Entry.to_jsonapi (e : Entry) (db : DB) : Resource :=
  { type := "entries"
    id := toString e.id
    attributes :=
      [("content", .str e.content),
       ("visibility", .str e.visibility),
       ("createdAt", .str (isoZ e.created_at)),
       ("updatedAt", .str (isoZ e.updated_at)),
       ("scribeId", .num e.scribe_id),
       ("scribeUsername",
         .str (match db.getScribe e.scribe_id with
               | some s => s.username
               | none => ""))] }

/-- `db.session.get(Entry, entry_id)`: primary-key lookup. -/
def DB.getEntry (db : DB) (entry_id : Nat) : Option Entry :=
  db.entries.find? (fun e => e.id == entry_id)

/-- `Scribe.query.filter_by(username=...).first()`. -/
def DB.findByUsername (db : DB) (username : String) : Option Scribe :=
  db.scribes.find? (fun s => s.username == username)

/-- `Scribe.query.filter_by(email=...).first()`. -/
def DB.findByEmail (db : DB) (email : String) : Option Scribe :=
  db.scribes.find? (fun s => s.email == email)

/-- Request JSON body: an ordered list of string-valued fields. -/
abbrev JsonObj := List (String × String)

/-- `data[k]` / `data.get(k)`: first binding of the field, if any. -/
def JsonObj.get? (d : JsonObj) (k : String) : Option String :=
  List.lookup k d

/-- `k in data`. -/
def JsonObj.hasField (d : JsonObj) (k : String) : Bool :=
  (d.get? k).isSome

/-- Python's `if not data:` on the result of `request.get_json()`: true
when the body is absent/null or the empty object. -/
def dataEmpty : Option JsonObj → Bool
  | none => true
  | some d => d.isEmpty

/-- The 400 "Invalid Request" response shared by handlers that reject an
absent or empty JSON body. -/
def invalidRequest : Response :=
  ⟨400, .errors [⟨"400", "Invalid Request", "Request body must be valid JSON"⟩]⟩

/-- The 401 response of `require_auth` when no credentials are supplied. -/
def authRequired : Response :=
  ⟨401, .errors [⟨"401", "Authentication Required",
    "You must provide valid credentials to access this resource"⟩]⟩

/-- The 401 response of `require_auth` when credentials are wrong. -/
def invalidCredentials : Response :=
  ⟨401, .errors [⟨"401", "Invalid Credentials",
    "The username or password provided is incorrect"⟩]⟩

/-- The 404 body used both for a truly missing entry and for a private
entry hidden from a non-owner (`posts.py`, identical literals). -/
def entryNotFound (entry_id : Nat) : Response :=
  ⟨404, .errors [⟨"404", "Entry Not Found",
    "No entry exists with ID " ++ toString entry_id⟩]⟩

/-- The 404 response for a missing scribe (`users.py`). -/
def scribeNotFound (scribe_id : Nat) : Response :=
  ⟨404, .errors [⟨"404", "Scribe Not Found",
    "No scribe exists with ID " ++ toString scribe_id⟩]⟩

/-- The `require_auth` decorator (`auth.py`): produce a 401 response when
credentials are missing or wrong, otherwise the authenticated scribe. -/
def require_auth (db : DB) (auth : Option Credentials) : Except Response Scribe :=
  match auth with
  | none => .error authRequired
  | some a =>
    match db.findByUsername a.username with
    | none => .error invalidCredentials
    | some scribe =>
      if scribe.check_password a.password then .ok scribe
      else .error invalidCredentials

/-- The `optional_auth` decorator (`auth.py`): missing or invalid
credentials yield `none` (anonymous), never an error response. -/
def optional_auth (db : DB) (auth : Option Credentials) : Option Scribe :=
  match auth with
  | none => none
  | some a =>
    match db.findByUsername a.username with
    | none => none
    | some scribe =>
      if scribe.check_password a.password then some scribe else none

/-- Whether `require_auth` lets the request through. -/
def authOk (db : DB) (auth : Option Credentials) : Bool :=
  match require_auth db auth with
  | .ok _ => true
  | .error _ => false

/-- Autoincrement primary key for a new scribe row. -/
def DB.nextScribeId (db : DB) : Nat :=
  (db.scribes.map Scribe.id).foldr max 0 + 1

/-- Autoincrement primary key for a new entry row. -/
def DB.nextEntryId (db : DB) : Nat :=
  (db.entries.map Entry.id).foldr max 0 + 1

/-- The `missing_fields` accumulation in `enlist` (`api/auth.py`): every
absent required field is collected before the single 400 is produced. -/
def missingFields (d : JsonObj) : List String :=
  (if d.hasField "username" then [] else ["username"]) ++
  (if d.hasField "email" then [] else ["email"]) ++
  (if d.hasField "password" then [] else ["password"])

/-- `POST /api/auth/enlist` (`api/auth.py`).  `salt` is the fresh random
salt consumed by `set_password`; `now` the creation timestamp. -/
def enlist (db : DB) (data : Option JsonObj) (now : Nat) (salt : String) :
    Response × DB :=
  if dataEmpty data then (invalidRequest, db)
  else
    let d := data.getD []
    let missing_fields := missingFields d
    if missing_fields.isEmpty = false then
      (⟨400, .errors [⟨"400", "Missing Required Fields",
        "The following fields are required: " ++
          String.intercalate ", " missing_fields⟩]⟩, db)
    else
      let username := (d.get? "username").getD ""
      let email := (d.get? "email").getD ""
      let password := (d.get? "password").getD ""
      let scribe : Scribe :=
        { id := db.nextScribeId
          username := username
          email := email
          password_hash := generate_password_hash salt password
          bio := d.get? "bio"
          created_at := now
          updated_at := now }
      -- commit raises IntegrityError exactly when a unique constraint on
      -- username or email is violated; the handler then rolls back and
      -- re-queries to attribute the conflict to the offending field
      if db.scribes.any (fun s => s.username == username) ||
         db.scribes.any (fun s => s.email == email) then
        match db.findByUsername username with
        | some _ =>
          (⟨409, .errors [⟨"409", "Username Already Exists",
            "The username '" ++ username ++ "' is already taken"⟩]⟩, db)
        | none =>
          match db.findByEmail email with
          | some _ =>
            (⟨409, .errors [⟨"409", "Email Already Exists",
              "The email '" ++ email ++ "' is already registered"⟩]⟩, db)
          | none =>
            (⟨409, .errors [⟨"409", "Conflict",
              "A scribe with this username or email already exists"⟩]⟩, db)
      else
        (⟨201, .dataObj scribe.to_jsonapi⟩,
         { db with scribes := db.scribes ++ [scribe] })

/-- `POST /api/auth/unlock` (`api/auth.py`). -/
def unlock (db : DB) (auth : Option Credentials) : Response :=
  match require_auth db auth with
  | .error r => r
  | .ok current_scribe => ⟨200, .dataObj current_scribe.to_jsonapi⟩

/-- `GET /api/scribes/<id>` (`api/users.py`): public profile read. -/
def get_scribe (db : DB) (scribe_id : Nat) : Response :=
  match db.getScribe scribe_id with
  | none => scribeNotFound scribe_id
  | some scribe => ⟨200, .dataObj scribe.to_jsonapi⟩

/-- `PATCH /api/scribes/<id>` (`api/users.py`). -/
def update_scribe (db : DB) (auth : Option Credentials) (scribe_id : Nat)
    (data : Option JsonObj) (now : Nat) (salt : String) : Response × DB :=
  match require_auth db auth with
  | .error r => (r, db)
  | .ok current_scribe =>
    match db.getScribe scribe_id with
    | none => (scribeNotFound scribe_id, db)
    | some scribe =>
      if current_scribe.id != scribe_id then
        (⟨403, .errors [⟨"403", "Forbidden",
          "You can only update your own profile"⟩]⟩, db)
      else if dataEmpty data then (invalidRequest, db)
      else
        let d := data.getD []
        let s1 := match d.get? "email" with
          | some em => { scribe with email := em }
          | none => scribe
        let s2 := match d.get? "bio" with
          | some b => { s1 with bio := some b }
          | none => s1
        let s3 := match d.get? "password" with
          | some p => { s2 with password_hash := generate_password_hash salt p }
          | none => s2
        -- commit raises IntegrityError when the new email collides with a
        -- different scribe's email
        if db.scribes.any (fun o => o.id != scribe.id && o.email == s3.email) then
          match (d.get? "email").bind db.findByEmail with
          | some existing_email =>
            if existing_email.id != scribe_id then
              (⟨409, .errors [⟨"409", "Email Already Exists",
                "The email '" ++ ((d.get? "email").getD "") ++
                  "' is already registered to another scribe"⟩]⟩, db)
            else
              (⟨409, .errors [⟨"409", "Conflict",
                "Unable to update profile due to a data conflict"⟩]⟩, db)
          | none =>
            (⟨409, .errors [⟨"409", "Conflict",
              "Unable to update profile due to a data conflict"⟩]⟩, db)
        else
          let committed := if s3 = scribe then scribe else { s3 with updated_at := now }
          let rows := db.scribes.map (fun o => if o.id == scribe.id then committed else o)
          (⟨200, .dataObj committed.to_jsonapi⟩, { db with scribes := rows })

/-- `DELETE /api/scribes/<id>` (`api/users.py`): the `cascade="all,
delete-orphan"` relationship of `Scribe.entries` (`models.py`) deletes the
scribe's entries together with the scribe row. -/
def delete_scribe (db : DB) (auth : Option Credentials) (scribe_id : Nat) :
    Response × DB :=
  match require_auth db auth with
  | .error r => (r, db)
  | .ok current_scribe =>
    match db.getScribe scribe_id with
    | none => (scribeNotFound scribe_id, db)
    | some scribe =>
      if current_scribe.id != scribe_id then
        (⟨403, .errors [⟨"403", "Forbidden",
          "You can only delete your own account"⟩]⟩, db)
      else
        (⟨204, .noContent⟩,
         { scribes := db.scribes.filter (fun s => s.id != scribe.id)
           entries := db.entries.filter (fun e => e.scribe_id != scribe.id) })

/-- `POST /api/entries` (`api/posts.py`). -/
def create_entry (db : DB) (auth : Option Credentials) (data : Option JsonObj)
    (now : Nat) : Response × DB :=
  match require_auth db auth with
  | .error r => (r, db)
  | .ok current_scribe =>
    if dataEmpty data then (invalidRequest, db)
    else
      let d := data.getD []
      if d.hasField "content" = false then
        (⟨400, .errors [⟨"400", "Missing Required Field",
          "The content field is required"⟩]⟩, db)
      else
        let visibility := (d.get? "visibility").getD "public"
        if visibility != "public" && visibility != "private" then
          (⟨400, .errors [⟨"400", "Invalid Visibility",
            "Visibility must be either 'public' or 'private'"⟩]⟩, db)
        else
          let entry : Entry :=
            { id := db.nextEntryId
              content := (d.get? "content").getD ""
              visibility := visibility
              created_at := now
              updated_at := now
              scribe_id := current_scribe.id }
          let db2 : DB := { db with entries := db.entries ++ [entry] }
          (⟨201, .dataObj (entry.to_jsonapi db2)⟩, db2)

/-- `GET /api/entries/<id>` (`api/posts.py`): read with `optional_auth`;
a private entry is hidden from non-owners with the same 404 used for a
missing id. -/
def get_entry (db : DB) (auth : Option Credentials) (entry_id : Nat) : Response :=
  let current_scribe := optional_auth db auth
  match db.getEntry entry_id with
  | none => entryNotFound entry_id
  | some entry =>
    if entry.visibility == "private" &&
       (match current_scribe with
        | none => true
        | some s => s.id != entry.scribe_id) then
      entryNotFound entry_id
    else
      ⟨200, .dataObj (entry.to_jsonapi db)⟩

/-- `PATCH /api/entries/<id>` (`api/posts.py`).  The in-session `content`
assignment made before visibility validation is rolled back (never
committed) when validation fails. -/
def update_entry (db : DB) (auth : Option Credentials) (entry_id : Nat)
    (data : Option JsonObj) (now : Nat) : Response × DB :=
  match require_auth db auth with
  | .error r => (r, db)
  | .ok current_scribe =>
    match db.getEntry entry_id with
    | none => (entryNotFound entry_id, db)
    | some entry =>
      if current_scribe.id != entry.scribe_id then
        (⟨403, .errors [⟨"403", "Forbidden",
          "You can only update your own entries"⟩]⟩, db)
      else if dataEmpty data then (invalidRequest, db)
      else
        let d := data.getD []
        let e1 := match d.get? "content" with
          | some c => { entry with content := c }
          | none => entry
        match d.get? "visibility" with
        | some v =>
          if v != "public" && v != "private" then
            (⟨400, .errors [⟨"400", "Invalid Visibility",
              "Visibility must be either 'public' or 'private'"⟩]⟩, db)
          else
            let e2 := { e1 with visibility := v }
            let committed := if e2 = entry then entry else { e2 with updated_at := now }
            let rows := db.entries.map (fun x => if x.id == entry.id then committed else x)
            let db2 : DB := { db with entries := rows }
            (⟨200, .dataObj (committed.to_jsonapi db2)⟩, db2)
        | none =>
          let committed := if e1 = entry then entry else { e1 with updated_at := now }
          let rows := db.entries.map (fun x => if x.id == entry.id then committed else x)
          let db2 : DB := { db with entries := rows }
          (⟨200, .dataObj (committed.to_jsonapi db2)⟩, db2)

/-- `DELETE /api/entries/<id>` (`api/posts.py`). -/
def delete_entry (db : DB) (auth : Option Credentials) (entry_id : Nat) :
    Response × DB :=
  match require_auth db auth with
  | .error r => (r, db)
  | .ok current_scribe =>
    match db.getEntry entry_id with
    | none => (entryNotFound entry_id, db)
    | some entry =>
      if current_scribe.id != entry.scribe_id then
        (⟨403, .errors [⟨"403", "Forbidden",
          "You can only delete your own entries"⟩]⟩, db)
      else
        (⟨204, .noContent⟩,
         { db with entries := db.entries.filter (fun e => e.id != entry.id) })

/-- Ordering used by the chronicle query `order_by(Entry.created_at.desc())`. -/
def chronLe (a b : Entry) : Prop :=
  b.created_at ≤ a.created_at

instance : DecidableRel chronLe :=
  fun a b => Nat.decLe b.created_at a.created_at

instance : IsTotal Entry chronLe :=
  ⟨fun a b => Nat.le_total b.created_at a.created_at⟩

instance : IsTrans Entry chronLe :=
  ⟨fun _ _ _ h1 h2 => Nat.le_trans h2 h1⟩

/-- `GET /api/chronicle` (`api/posts.py`): the caller's entries, newest
first; the SQL `ORDER BY created_at DESC` over the stored rows is modelled
as a (stable) sort of the row list. -/
def get_chronicle (db : DB) (auth : Option Credentials) : Response :=
  match require_auth db auth with
  | .error r => r
  | .ok current_scribe =>
    let entries := List.insertionSort chronLe
      (db.entries.filter (fun e => e.scribe_id == current_scribe.id))
    ⟨200, .dataList (entries.map (fun e => e.to_jsonapi db))⟩

/-! ### State predicates and concrete fixtures -/

/-- Referential integrity: every entry's `scribe_id` names a live scribe. -/
def Integrity (db : DB) : Prop :=
  ∀ e ∈ db.entries, ∃ s ∈ db.scribes, s.id = e.scribe_id

/-- Resource ids of a `dataList` body (projection used to read chronicle
responses in concrete checks). -/
def bodyIds : Body → List String
  | .dataList rs => rs.map Resource.id
  | _ => []

/-- Fixture scribe `alice` (id 1). -/
def wAlice : Scribe :=
  { id := 1, username := "alice", email := "alice@example.com",
    password_hash := generate_password_hash "saltA" "secret123", bio := none,
    created_at := 0, updated_at := 0 }

/-- Fixture scribe `bob` (id 2). -/
def wBob : Scribe :=
  { id := 2, username := "bob", email := "bob@example.com",
    password_hash := generate_password_hash "saltB" "hunter2", bio := none,
    created_at := 0, updated_at := 0 }

/-- Fixture private entry of alice (id 10). -/
def wPriv : Entry :=
  { id := 10, content := "secret notes", visibility := "private",
    created_at := 1, updated_at := 1, scribe_id := 1 }

/-- Fixture public entry of alice (id 11). -/
def wPub : Entry :=
  { id := 11, content := "hello world", visibility := "public",
    created_at := 2, updated_at := 2, scribe_id := 1 }

/-- Fixture database: alice and bob; alice owns one private and one public
entry. -/
def wDB : DB := { scribes := [wAlice, wBob], entries := [wPriv, wPub] }

/-- Valid credentials for alice. -/
def wAliceCreds : Credentials := ⟨"alice", "secret123"⟩

/-- Valid credentials for bob. -/
def wBobCreds : Credentials := ⟨"bob", "hunter2"⟩

/-- Credentials with alice's username and a wrong password. -/
def wBadCreds : Credentials := ⟨"alice", "wrongpass"⟩

/-- Database holding only alice, with no entries. -/
def wDBA : DB := { scribes := [wAlice], entries := [] }

/-- Five entries created through the API in order (timestamps 11..15). -/
def wDB5 : DB :=
  (create_entry
    (create_entry
      (create_entry
        (create_entry
          (create_entry wDBA (some wAliceCreds) (some [("content", "e1")]) 11).2
          (some wAliceCreds) (some [("content", "e2")]) 12).2
        (some wAliceCreds) (some [("content", "e3")]) 13).2
      (some wAliceCreds) (some [("content", "e4")]) 14).2
    (some wAliceCreds) (some [("content", "e5")]) 15).2

/-! ### Claim theorems -/

/-- C9: `GET /api/entries/{id}` never returns 401: its only statuses are
200 and 404, and a request whose Basic credentials are missing or invalid
(so that `optional_auth` yields no scribe) gets exactly the response an
anonymous request gets. -/
theorem c9_get_entry_never_401 (db : DB) (auth : Option Credentials)
    (entry_id : Nat) :
    ((get_entry db auth entry_id).code = 200 ∨
     (get_entry db auth entry_id).code = 404) ∧
    (optional_auth db auth = none →
      get_entry db auth entry_id = get_entry db none entry_id) := by
  constructor
  · unfold get_entry
    cases h : db.getEntry entry_id with
    | none => simp [entryNotFound]
    | some entry =>
      dsimp only
      split
      · simp [entryNotFound]
      · simp
  · intro h
    unfold get_entry
    rw [h]
    rfl

/-- C9 witness: at the concrete fixture state, credentials with a wrong
password are treated as anonymous and receive the anonymous response. -/
theorem c9_witness :
    optional_auth wDB (some wBadCreds) = none ∧
    get_entry wDB (some wBadCreds) 10 = get_entry wDB none 10 :=
  ⟨by decide, (c9_get_entry_never_401 wDB (some wBadCreds) 10).2 (by decide)⟩

/-- C10: the Scribe profile projection used by every successful read has
exactly the attributes username, email, bio, createdAt, updatedAt; it is
invariant under any change of the stored password hash, both at the
projection itself and through `GET /api/scribes/{id}` over a store whose
hashes are rewritten arbitrarily. -/
theorem c10_profile_never_exposes_hash :
    (∀ s : Scribe, (Scribe.to_jsonapi s).attributes.map Prod.fst =
      ["username", "email", "bio", "createdAt", "updatedAt"]) ∧
    (∀ (s : Scribe) (h : PHash),
      Scribe.to_jsonapi { s with password_hash := h } = Scribe.to_jsonapi s) ∧
    (∀ (db : DB) (f : Scribe → PHash) (scribe_id : Nat),
      get_scribe
        { db with scribes := db.scribes.map (fun s => { s with password_hash := f s }) }
        scribe_id = get_scribe db scribe_id) := by
  refine ⟨fun s => rfl, fun s h => rfl, fun db f scribe_id => ?_⟩
  unfold get_scribe DB.getScribe
  rw [List.find?_map]
  have hcomp :
      ((fun s : Scribe => s.id == scribe_id) ∘
        (fun s : Scribe => { s with password_hash := f s })) =
      (fun s : Scribe => s.id == scribe_id) := rfl
  rw [hcomp]
  cases db.scribes.find? (fun s => s.id == scribe_id) <;> rfl

/-- C1: a private entry read by anyone but its owner (anonymous or a
different authenticated scribe) yields exactly the 404 used for a missing
id — equal in status and body to the response for an id that does not
exist — and never a distinct Forbidden signal. -/
theorem c1_private_entry_hidden_as_missing (db : DB) (auth : Option Credentials)
    (entry_id : Nat) (entry : Entry)
    (hget : db.getEntry entry_id = some entry)
    (hpriv : entry.visibility = "private")
    (hnotown : ∀ s, optional_auth db auth = some s → s.id ≠ entry.scribe_id) :
    get_entry db auth entry_id = entryNotFound entry_id ∧
    (get_entry db auth entry_id).code = 404 ∧
    ∀ (db2 : DB) (auth2 : Option Credentials),
      db2.getEntry entry_id = none →
      get_entry db auth entry_id = get_entry db2 auth2 entry_id := by
  have hmain : get_entry db auth entry_id = entryNotFound entry_id := by
    unfold get_entry
    rw [hget]
    dsimp only
    have hcond : (entry.visibility == "private" &&
        (match optional_auth db auth with
         | none => true
         | some s => s.id != entry.scribe_id)) = true := by
      rw [hpriv]
      cases h : optional_auth db auth with
      | none => rfl
      | some s =>
        simp only [Bool.and_eq_true, beq_self_eq_true, true_and]
        exact bne_iff_ne.mpr (hnotown s h)
    rw [if_pos hcond]
  refine ⟨hmain, by rw [hmain]; rfl, fun db2 auth2 h2 => ?_⟩
  rw [hmain]
  unfold get_entry
  rw [h2]

/-- C1 witness: bob (authenticated, not the owner) reading alice's private
entry 10 gets the very response an anonymous reader gets for absent id 10. -/
theorem c1_witness :
    wDB.getEntry 10 = some wPriv ∧
    get_entry wDB (some wBobCreds) 10 = entryNotFound 10 :=
  ⟨by decide,
   (c1_private_entry_hidden_as_missing wDB (some wBobCreds) 10 wPriv
     (by decide) (by decide)
     (fun s hs => by
       have h2 : wBob = s := Option.some.inj hs
       rw [← h2]
       decide)).1⟩

/-- C2 counterexample: the claim says a PATCH on a nonexistent entry with
no credentials yields 404; in the code the `require_auth` decorator runs
first, so the concrete request (no credentials, absent entry 99) yields
401, not 404. -/
theorem c2_counterexample :
    wDB.getEntry 99 = none ∧
    (update_entry wDB none 99 (some [("content", "x")]) 5).1.code = 401 ∧
    ¬ (update_entry wDB none 99 (some [("content", "x")]) 5).1.code = 404 := by
  decide

/-- C2 (amended): for every write/delete operation the authentication
check is evaluated before the resource-existence lookup: missing or
invalid credentials yield the decorator's 401 with the state unchanged,
even when the target does not exist; only an authenticated caller reaches
the existence lookup, and then an absent target yields 404. -/
theorem c2_auth_precedes_existence (db : DB) (auth : Option Credentials)
    (entry_id scribe_id : Nat) (data : Option JsonObj) (now : Nat) (salt : String) :
    (∀ r, require_auth db auth = .error r →
      r.code = 401 ∧
      update_entry db auth entry_id data now = (r, db) ∧
      delete_entry db auth entry_id = (r, db) ∧
      update_scribe db auth scribe_id data now salt = (r, db) ∧
      delete_scribe db auth scribe_id = (r, db)) ∧
    (∀ s, require_auth db auth = .ok s →
      (db.getEntry entry_id = none →
        update_entry db auth entry_id data now = (entryNotFound entry_id, db) ∧
        delete_entry db auth entry_id = (entryNotFound entry_id, db)) ∧
      (db.getScribe scribe_id = none →
        update_scribe db auth scribe_id data now salt = (scribeNotFound scribe_id, db) ∧
        delete_scribe db auth scribe_id = (scribeNotFound scribe_id, db))) := by
  constructor
  · intro r hr
    have hcode : r.code = 401 := by
      unfold require_auth at hr
      cases auth with
      | none =>
        simp only [Except.error.injEq] at hr
        rw [← hr]
        rfl
      | some a =>
        dsimp only at hr
        cases hfind : db.findByUsername a.username with
        | none =>
          rw [hfind] at hr
          simp only [Except.error.injEq] at hr
          rw [← hr]
          rfl
        | some scribe =>
          rw [hfind] at hr
          dsimp only at hr
          by_cases hpw : scribe.check_password a.password = true
          · simp only [hpw, if_true] at hr
            exact absurd hr (by simp)
          · rw [if_neg hpw] at hr
            simp only [Except.error.injEq] at hr
            rw [← hr]
            rfl
    refine ⟨hcode, ?_, ?_, ?_, ?_⟩
    · unfold update_entry
      rw [hr]
    · unfold delete_entry
      rw [hr]
    · unfold update_scribe
      rw [hr]
    · unfold delete_scribe
      rw [hr]
  · intro s hs
    constructor
    · intro hnone
      constructor
      · unfold update_entry
        rw [hs, hnone]
      · unfold delete_entry
        rw [hs, hnone]
    · intro hnone
      constructor
      · unfold update_scribe
        rw [hs, hnone]
      · unfold delete_scribe
        rw [hs, hnone]

/-- C2 witness: concretely, with no credentials every write/delete on
absent targets returns the decorator's 401 and leaves the state unchanged;
with alice's valid credentials the absent entry 99 yields 404. -/
theorem c2_witness :
    (update_entry wDB none 99 (some [("content", "x")]) 5 = (authRequired, wDB) ∧
     delete_entry wDB none 99 = (authRequired, wDB)) ∧
    (update_entry wDB (some wAliceCreds) 99 (some [("content", "x")]) 5 =
       (entryNotFound 99, wDB) ∧
     delete_entry wDB (some wAliceCreds) 99 = (entryNotFound 99, wDB)) := by
  have h1 := (c2_auth_precedes_existence wDB none 99 99
    (some [("content", "x")]) 5 "s").1 authRequired rfl
  have h2 := ((c2_auth_precedes_existence wDB (some wAliceCreds) 99 99
    (some [("content", "x")]) 5 "s").2 wAlice rfl).1 (by decide)
  exact ⟨⟨h1.2.1, h1.2.2.1⟩, h2⟩

/-- C6: an owner PATCH whose body carries an invalid visibility value is
rejected with the 400 "Invalid Visibility" response and the persisted
state is returned unchanged — no field mutation survives — even when the
same body also carries a content field. -/
theorem c6_invalid_visibility_no_mutation (db : DB) (auth : Option Credentials)
    (entry_id : Nat) (d : JsonObj) (now : Nat) (s : Scribe) (entry : Entry)
    (v : String)
    (hauth : require_auth db auth = .ok s)
    (hget : db.getEntry entry_id = some entry)
    (hown : s.id = entry.scribe_id)
    (hne : d ≠ [])
    (hv : d.get? "visibility" = some v)
    (hv1 : v ≠ "public") (hv2 : v ≠ "private") :
    update_entry db auth entry_id (some d) now =
      (⟨400, .errors [⟨"400", "Invalid Visibility",
        "Visibility must be either 'public' or 'private'"⟩]⟩, db) := by
  have hde : dataEmpty (some d) = false := by
    cases d with
    | nil => exact absurd rfl hne
    | cons a l => rfl
  have hcond : (v != "public" && v != "private") = true := by
    simp only [Bool.and_eq_true, bne_iff_ne]
    exact ⟨hv1, hv2⟩
  unfold update_entry
  rw [hauth]
  dsimp only
  rw [hget]
  dsimp only
  rw [hown]
  simp only [bne_self_eq_false, Bool.false_eq_true, if_false, hde,
    Option.getD_some, hv]
  rw [if_pos hcond]

/-- C6 witness: alice PATCHes her entry 10 with a valid content field and
visibility "bogus"; the result is the 400 and the untouched fixture state. -/
theorem c6_witness :
    update_entry wDB (some wAliceCreds) 10
        (some [("content", "new text"), ("visibility", "bogus")]) 5 =
      (⟨400, .errors [⟨"400", "Invalid Visibility",
        "Visibility must be either 'public' or 'private'"⟩]⟩, wDB) :=
  c6_invalid_visibility_no_mutation wDB (some wAliceCreds) 10
    [("content", "new text"), ("visibility", "bogus")] 5 wAlice wPriv "bogus"
    rfl (by decide) (by decide) (by decide) (by decide) (by decide) (by decide)

/-- Helper: replacing the row found under a primary-key predicate makes
the subsequent primary-key lookup return the replacement. -/
theorem find?_map_replace (l : List Entry) (eid : Nat) (e e2 : Entry)
    (hfind : l.find? (fun x => x.id == eid) = some e) (hid : e2.id = e.id) :
    (l.map (fun x => if x.id == e.id then e2 else x)).find?
      (fun x => x.id == eid) = some e2 := by
  have heid : e.id = eid := by simpa using List.find?_some hfind
  induction l with
  | nil => simp at hfind
  | cons a l ih =>
    rw [List.find?_cons] at hfind
    simp only [List.map_cons]
    rw [List.find?_cons]
    cases ha : (a.id == eid) with
    | true =>
      simp only [ha] at hfind
      have hae : a = e := Option.some.inj hfind
      subst hae
      simp [hid, heid]
    | false =>
      simp only [ha] at hfind
      have hne : (a.id == e.id) = false := by
        rw [heid]
        exact ha
      rw [if_neg (by simp [hne])]
      simp only [ha]
      exact ih hfind

/-- Helper: after deleting the row found under a primary-key predicate,
the primary-key lookup finds nothing. -/
theorem find?_filter_removed (l : List Entry) (eid : Nat) (e : Entry)
    (hfind : l.find? (fun x => x.id == eid) = some e) :
    (l.filter (fun x => x.id != e.id)).find? (fun x => x.id == eid) = none := by
  have heid : e.id = eid := by simpa using List.find?_some hfind
  apply List.find?_eq_none.mpr
  intro x hx
  have hmem := List.mem_filter.mp hx
  have hxe : x.id ≠ e.id := bne_iff_ne.mp hmem.2
  intro hbeq
  have hxeid : x.id = eid := by simpa using hbeq
  exact hxe (by rw [hxeid, ← heid])

/-- C4: for an existing entry, a PATCH or DELETE by an authenticated
non-owner returns 403 and leaves the state unchanged; by the owner,
DELETE returns 204 and removes the entry, and a valid PATCH returns 200
with the requested field updates persisted. -/
theorem c4_entry_write_owner_only (db : DB) (auth : Option Credentials)
    (entry_id : Nat) (data : Option JsonObj) (now : Nat) (entry : Entry)
    (B : Scribe)
    (hget : db.getEntry entry_id = some entry)
    (hauth : require_auth db auth = .ok B) :
    (B.id ≠ entry.scribe_id →
      (update_entry db auth entry_id data now).1.code = 403 ∧
      (update_entry db auth entry_id data now).2 = db ∧
      (delete_entry db auth entry_id).1.code = 403 ∧
      (delete_entry db auth entry_id).2 = db) ∧
    (B.id = entry.scribe_id →
      ((delete_entry db auth entry_id).1 = ⟨204, .noContent⟩ ∧
       (delete_entry db auth entry_id).2.getEntry entry_id = none) ∧
      (∀ d, data = some d → d ≠ [] →
        (∀ v, d.get? "visibility" = some v → v = "public" ∨ v = "private") →
        (update_entry db auth entry_id data now).1.code = 200 ∧
        ∃ e2, (update_entry db auth entry_id data now).2.getEntry entry_id = some e2 ∧
          e2.content = (d.get? "content").getD entry.content ∧
          e2.visibility = (d.get? "visibility").getD entry.visibility ∧
          e2.scribe_id = entry.scribe_id)) := by
  have hgetl : db.entries.find? (fun x => x.id == entry_id) = some entry := hget
  constructor
  · intro hne
    have hbne : (B.id != entry.scribe_id) = true := bne_iff_ne.mpr hne
    have hu : (update_entry db auth entry_id data now) =
        (⟨403, .errors [⟨"403", "Forbidden",
          "You can only update your own entries"⟩]⟩, db) := by
      unfold update_entry
      rw [hauth]
      dsimp only
      rw [hget]
      dsimp only
      rw [if_pos hbne]
    have hd : (delete_entry db auth entry_id) =
        (⟨403, .errors [⟨"403", "Forbidden",
          "You can only delete your own entries"⟩]⟩, db) := by
      unfold delete_entry
      rw [hauth]
      dsimp only
      rw [hget]
      dsimp only
      rw [if_pos hbne]
    exact ⟨by rw [hu], by rw [hu], by rw [hd], by rw [hd]⟩
  · intro hown
    have hbne : ¬ ((B.id != entry.scribe_id) = true) := by
      rw [hown]
      simp
    constructor
    · have hd : (delete_entry db auth entry_id) =
          (⟨204, .noContent⟩,
           { db with entries := db.entries.filter (fun e => e.id != entry.id) }) := by
        unfold delete_entry
        rw [hauth]
        dsimp only
        rw [hget]
        dsimp only
        rw [if_neg hbne]
      refine ⟨by rw [hd], ?_⟩
      rw [hd]
      exact find?_filter_removed db.entries entry_id entry hgetl
    · rintro d rfl hdne hvv
      have hde : dataEmpty (some d) = false := by
        cases d with
        | nil => exact absurd rfl hdne
        | cons a l => rfl
      unfold update_entry
      rw [hauth]
      dsimp only
      rw [hget]
      dsimp only
      rw [if_neg hbne]
      rw [hde]
      dsimp only [Bool.false_eq_true, if_false, Option.getD_some]
      cases hc : d.get? "content" with
      | none =>
        cases hv : d.get? "visibility" with
        | none =>
          dsimp only
          refine ⟨rfl, ?_⟩
          rw [if_pos rfl]
          refine ⟨entry, ?_, rfl, rfl, rfl⟩
          exact find?_map_replace db.entries entry_id entry entry hgetl rfl
        | some v =>
          have hcond : ¬ ((v != "public" && v != "private") = true) := by
            rcases hvv v hv with h | h <;> simp [h]
          dsimp only
          rw [if_neg hcond]
          by_cases hcomm : ({ entry with visibility := v } : Entry) = entry
          · rw [if_pos hcomm]
            have hev : entry.visibility = v := by
              rw [← hcomm]
            refine ⟨rfl, entry, ?_, rfl, hev, rfl⟩
            exact find?_map_replace db.entries entry_id entry entry hgetl rfl
          · rw [if_neg hcomm]
            refine ⟨rfl, { entry with visibility := v, updated_at := now },
              ?_, rfl, rfl, rfl⟩
            exact find?_map_replace db.entries entry_id entry
              { entry with visibility := v, updated_at := now } hgetl rfl
      | some c =>
        cases hv : d.get? "visibility" with
        | none =>
          dsimp only
          refine ⟨rfl, ?_⟩
          by_cases hcomm : ({ entry with content := c } : Entry) = entry
          · rw [if_pos hcomm]
            have hec : entry.content = c := by
              rw [← hcomm]
            refine ⟨entry, ?_, hec, rfl, rfl⟩
            exact find?_map_replace db.entries entry_id entry entry hgetl rfl
          · rw [if_neg hcomm]
            refine ⟨{ entry with content := c, updated_at := now },
              ?_, rfl, rfl, rfl⟩
            exact find?_map_replace db.entries entry_id entry
              { entry with content := c, updated_at := now } hgetl rfl
        | some v =>
          have hcond : ¬ ((v != "public" && v != "private") = true) := by
            rcases hvv v hv with h | h <;> simp [h]
          dsimp only
          rw [if_neg hcond]
          by_cases hcomm : ({ entry with content := c, visibility := v } : Entry) = entry
          · rw [if_pos hcomm]
            have hec : entry.content = c := by
              rw [← hcomm]
            have hev : entry.visibility = v := by
              rw [← hcomm]
            refine ⟨rfl, entry, ?_, hec, hev, rfl⟩
            exact find?_map_replace db.entries entry_id entry entry hgetl rfl
          · rw [if_neg hcomm]
            refine ⟨rfl, { entry with content := c, visibility := v, updated_at := now },
              ?_, rfl, rfl, rfl⟩
            exact find?_map_replace db.entries entry_id entry
              { entry with content := c, visibility := v, updated_at := now } hgetl rfl

/-- C4 witness: at the fixture state, bob's PATCH on alice's entry 10 is a
403 that changes nothing, and alice's own PATCH of the same entry is a 200
whose persisted row carries the new content. -/
theorem c4_witness :
    ((update_entry wDB (some wBobCreds) 10 (some [("content", "x")]) 5).1.code = 403 ∧
     (update_entry wDB (some wBobCreds) 10 (some [("content", "x")]) 5).2 = wDB) ∧
    ((delete_entry wDB (some wAliceCreds) 10).1 = ⟨204, .noContent⟩ ∧
     (delete_entry wDB (some wAliceCreds) 10).2.getEntry 10 = none) := by
  have hb := (c4_entry_write_owner_only wDB (some wBobCreds) 10
    (some [("content", "x")]) 5 wPriv wBob (by decide) rfl).1 (by decide)
  have ha := ((c4_entry_write_owner_only wDB (some wAliceCreds) 10
    (some [("content", "x")]) 5 wPriv wAlice (by decide) rfl).2 (by decide)).1
  exact ⟨⟨hb.1, hb.2.1⟩, ha⟩

/-- C5: a registration that hits a uniqueness violation reports exactly
the colliding field: a taken username (whatever the email) yields the 409
titled "Username Already Exists"; a collision on the email alone yields
"Email Already Exists". -/
theorem c5_conflict_field_attribution (db : DB) (d : JsonObj) (now : Nat)
    (salt : String) (u em pw : String)
    (hu : d.get? "username" = some u)
    (he : d.get? "email" = some em)
    (hp : d.get? "password" = some pw)
    (hne : d ≠ []) :
    (db.scribes.any (fun s => s.username == u) = true →
      enlist db (some d) now salt =
        (⟨409, .errors [⟨"409", "Username Already Exists",
          "The username '" ++ u ++ "' is already taken"⟩]⟩, db)) ∧
    (db.scribes.any (fun s => s.username == u) = false →
     db.scribes.any (fun s => s.email == em) = true →
      enlist db (some d) now salt =
        (⟨409, .errors [⟨"409", "Email Already Exists",
          "The email '" ++ em ++ "' is already registered"⟩]⟩, db)) := by
  have hde : dataEmpty (some d) = false := by
    cases d with
    | nil => exact absurd rfl hne
    | cons a l => rfl
  have hmf : missingFields d = [] := by
    unfold missingFields JsonObj.hasField
    rw [hu, he, hp]
    rfl
  constructor
  · intro hun
    obtain ⟨s, hs⟩ : ∃ s, db.findByUsername u = some s := by
      rw [← Option.isSome_iff_exists]
      unfold DB.findByUsername
      rw [List.find?_isSome]
      simpa using List.any_eq_true.mp hun
    simp [enlist, hde, hmf, hu, he, hp, hun, hs]
  · intro hun hem
    have hfun : db.findByUsername u = none := by
      unfold DB.findByUsername
      exact List.find?_eq_none.mpr (fun x hx => by
        have := List.any_eq_false.mp hun x hx
        simpa using this)
    obtain ⟨s, hs⟩ : ∃ s, db.findByEmail em = some s := by
      rw [← Option.isSome_iff_exists]
      unfold DB.findByEmail
      rw [List.find?_isSome]
      simpa using List.any_eq_true.mp hem
    simp [enlist, hde, hmf, hu, he, hp, hun, hem, hfun, hs]

/-- C5 witness: at the fixture state, registering with alice's username
and alice's email reports the username collision; registering with a fresh
username but alice's email reports the email collision. -/
theorem c5_witness :
    enlist wDB (some [("username", "alice"), ("email", "alice@example.com"),
        ("password", "p")]) 9 "s9" =
      (⟨409, .errors [⟨"409", "Username Already Exists",
        "The username 'alice' is already taken"⟩]⟩, wDB) ∧
    enlist wDB (some [("username", "carol"), ("email", "alice@example.com"),
        ("password", "p")]) 9 "s9" =
      (⟨409, .errors [⟨"409", "Email Already Exists",
        "The email 'alice@example.com' is already registered"⟩]⟩, wDB) := by
  constructor
  · exact (c5_conflict_field_attribution wDB
      [("username", "alice"), ("email", "alice@example.com"), ("password", "p")]
      9 "s9" "alice" "alice@example.com" "p" rfl rfl rfl (by decide)).1 (by decide)
  · exact (c5_conflict_field_attribution wDB
      [("username", "carol"), ("email", "alice@example.com"), ("password", "p")]
      9 "s9" "carol" "alice@example.com" "p" rfl rfl rfl (by decide)).2
      (by decide) (by decide)

/-- C8 counterexample: the empty JSON object is a registration request
missing all three required fields (a nonempty missing subset), yet the
code's leading `if not data:` check (true for the falsy empty dict)
returns the generic 400 "Invalid Request" that enumerates nothing. -/
theorem c8_counterexample :
    missingFields [] = ["username", "email", "password"] ∧
    enlist wDB (some ([] : JsonObj)) 9 "s9" =
      (⟨400, .errors [⟨"400", "Invalid Request",
        "Request body must be valid JSON"⟩]⟩, wDB) := by
  decide

/-- C8 (amended): a registration whose body is the empty JSON object gets
the generic 400 "Invalid Request" (the falsy-dict check precedes field
validation); a registration whose body is a non-empty object missing any
nonempty subset of the required fields gets one 400 whose detail
enumerates every missing field name; with all three present and unique,
registration succeeds with 201 and appends the new scribe. -/
theorem c8_missing_fields_enumerated (db : DB) (d : JsonObj) (now : Nat)
    (salt : String) :
    (enlist db (some ([] : JsonObj)) now salt = (invalidRequest, db)) ∧
    (d ≠ [] → missingFields d ≠ [] →
      enlist db (some d) now salt =
        (⟨400, .errors [⟨"400", "Missing Required Fields",
          "The following fields are required: " ++
            String.intercalate ", " (missingFields d)⟩]⟩, db)) ∧
    (∀ k, k ∈ (["username", "email", "password"] : List String) →
      (k ∈ missingFields d ↔ d.get? k = none)) ∧
    (missingFields d = [] →
     db.scribes.any (fun s => s.username == (d.get? "username").getD "") = false →
     db.scribes.any (fun s => s.email == (d.get? "email").getD "") = false →
      (enlist db (some d) now salt).1.code = 201 ∧
      ∃ s, (enlist db (some d) now salt).2.scribes = db.scribes ++ [s] ∧
        s.username = (d.get? "username").getD "" ∧
        s.email = (d.get? "email").getD "") := by
  refine ⟨rfl, ?_, ?_, ?_⟩
  · intro hne hmf
    have hde : dataEmpty (some d) = false := by
      cases d with
      | nil => exact absurd rfl hne
      | cons a l => rfl
    have hmf2 : (missingFields d).isEmpty = false := by
      cases hmfv : missingFields d with
      | nil => exact absurd hmfv hmf
      | cons a l => rfl
    simp [enlist, hde, hmf2]
  · intro k hk
    have hget : ∀ f : String, d.hasField f = false ↔ d.get? f = none := by
      intro f
      unfold JsonObj.hasField
      cases d.get? f <;> simp
    have hget2 : ∀ f : String, d.hasField f = true ↔ ¬ d.get? f = none := by
      intro f
      unfold JsonObj.hasField
      cases d.get? f <;> simp
    have hk2 : k = "username" ∨ k = "email" ∨ k = "password" := by
      simpa using hk
    rcases hk2 with rfl | rfl | rfl <;>
      by_cases h1 : d.hasField "username" = true <;>
        by_cases h2 : d.hasField "email" = true <;>
          by_cases h3 : d.hasField "password" = true <;>
            simp_all [missingFields, hget, hget2]
  · intro hmf hA hB
    have hne : d ≠ [] := by
      intro h
      rw [h] at hmf
      exact absurd hmf (by decide)
    have hde : dataEmpty (some d) = false := by
      cases d with
      | nil => exact absurd rfl hne
      | cons a l => rfl
    have hcond : ((db.scribes.any fun s => s.username == (d.get? "username").getD "") ||
        (db.scribes.any fun s => s.email == (d.get? "email").getD "")) = false := by
      rw [hA, hB]
      rfl
    simp only [enlist, hde, Bool.false_eq_true, if_false, hmf,
      List.isEmpty_nil, hcond, Option.getD_some]
    refine ⟨rfl, _, rfl, rfl, rfl⟩

/-- C8 witness: a non-empty request with only an email gets one 400
enumerating "username, password"; a fully-populated fresh request yields
201. -/
theorem c8_witness :
    (missingFields [("email", "c@x.com")] ≠ [] ∧
     enlist wDB (some [("email", "c@x.com")]) 9 "s9" =
       (⟨400, .errors [⟨"400", "Missing Required Fields",
         "The following fields are required: username, password"⟩]⟩, wDB)) ∧
    (enlist wDB (some [("username", "carol"), ("email", "c@x.com"),
        ("password", "p")]) 9 "s9").1.code = 201 := by
  refine ⟨⟨by decide, ?_⟩, ?_⟩
  · exact (c8_missing_fields_enumerated wDB [("email", "c@x.com")] 9
      "s9").2.1 (by decide) (by decide)
  · exact ((c8_missing_fields_enumerated wDB
      [("username", "carol"), ("email", "c@x.com"), ("password", "p")] 9
      "s9").2.2.2 (by decide) (by decide) (by decide)).1

/-- C7: the chronicle of an authenticated scribe contains exactly that
scribe's entries (both visibilities, nobody else's), ordered by creation
time descending; with pairwise-distinct creation times the order is
strictly newest-first. -/
theorem c7_chronicle_owned_newest_first (db : DB) (auth : Option Credentials)
    (A : Scribe) (hauth : require_auth db auth = .ok A) :
    (get_chronicle db auth).code = 200 ∧
    ∃ es : List Entry, (get_chronicle db auth).body =
        .dataList (es.map (fun e => e.to_jsonapi db)) ∧
      es.Perm (db.entries.filter (fun e => e.scribe_id == A.id)) ∧
      (∀ e ∈ es, e.scribe_id = A.id) ∧
      es.Sorted chronLe ∧
      ((db.entries.filter (fun e => e.scribe_id == A.id)).Pairwise
          (fun a b => a.created_at ≠ b.created_at) →
        es.Pairwise (fun a b => b.created_at < a.created_at)) := by
  have hch : get_chronicle db auth =
      ⟨200, .dataList ((List.insertionSort chronLe
        (db.entries.filter (fun e => e.scribe_id == A.id))).map
          (fun e => e.to_jsonapi db))⟩ := by
    unfold get_chronicle
    rw [hauth]
  set owned := db.entries.filter (fun e => e.scribe_id == A.id) with howned
  have hperm : (List.insertionSort chronLe owned).Perm owned :=
    List.perm_insertionSort chronLe owned
  refine ⟨by rw [hch], List.insertionSort chronLe owned, by rw [hch], hperm,
    ?_, List.sorted_insertionSort chronLe owned, ?_⟩
  · intro e he
    have hmem : e ∈ owned := hperm.mem_iff.mp he
    have := List.mem_filter.mp hmem
    simpa using this.2
  · intro hdist
    have hdist2 : (List.insertionSort chronLe owned).Pairwise
        (fun a b => a.created_at ≠ b.created_at) := by
      refine (List.Perm.pairwise_iff ?_ hperm).mpr hdist
      intro a b h
      exact h.symm
    have hsorted : (List.insertionSort chronLe owned).Pairwise chronLe :=
      List.sorted_insertionSort chronLe owned
    have hboth := hsorted.and hdist2
    exact hboth.imp (fun h => lt_of_le_of_ne h.1 (fun hc => h.2 hc.symm))

/-- C7 witness: after creating five entries in order through the API, the
chronicle body lists their ids newest-first; the theorem applies with
alice authenticated at that state. -/
theorem c7_witness :
    (require_auth wDB5 (some wAliceCreds) = .ok wAlice ∧
     (get_chronicle wDB5 (some wAliceCreds)).code = 200) ∧
    bodyIds (get_chronicle wDB5 (some wAliceCreds)).body =
      ["5", "4", "3", "2", "1"] :=
  ⟨⟨rfl, (c7_chronicle_owned_newest_first wDB5 (some wAliceCreds) wAlice rfl).1⟩,
   by decide⟩

/-- Helper: every error of `require_auth` carries status 401. -/
theorem require_auth_error_code (db : DB) (auth : Option Credentials)
    (r : Response) (h : require_auth db auth = .error r) : r.code = 401 := by
  unfold require_auth at h
  cases auth with
  | none =>
    simp only [Except.error.injEq] at h
    rw [← h]
    rfl
  | some a =>
    dsimp only at h
    cases hf : db.findByUsername a.username with
    | none =>
      rw [hf] at h
      simp only [Except.error.injEq] at h
      rw [← h]
      rfl
    | some scribe =>
      rw [hf] at h
      dsimp only at h
      by_cases hpw : scribe.check_password a.password = true
      · rw [if_pos hpw] at h
        exact absurd h (by simp)
      · rw [if_neg hpw] at h
        simp only [Except.error.injEq] at h
        rw [← h]
        rfl

/-- Helper: the scribe authenticated by `require_auth` is a stored row. -/
theorem require_auth_mem (db : DB) (auth : Option Credentials) (s : Scribe)
    (h : require_auth db auth = .ok s) : s ∈ db.scribes := by
  unfold require_auth at h
  cases auth with
  | none => exact absurd h (by simp)
  | some a =>
    dsimp only at h
    cases hf : db.findByUsername a.username with
    | none =>
      rw [hf] at h
      exact absurd h (by simp)
    | some scribe =>
      rw [hf] at h
      dsimp only at h
      by_cases hpw : scribe.check_password a.password = true
      · rw [if_pos hpw] at h
        have := Except.ok.inj h
        subst this
        exact List.mem_of_find?_eq_some hf
      · rw [if_neg hpw] at h
        exact absurd h (by simp)

/-- Helper: integrity is preserved by appending a scribe row. -/
theorem integrity_add_scribe (db : DB) (s0 : Scribe) (hInt : Integrity db) :
    Integrity { db with scribes := db.scribes ++ [s0] } := by
  intro e he
  obtain ⟨s, hs, hid⟩ := hInt e he
  exact ⟨s, List.mem_append_left _ hs, hid⟩

/-- Helper: integrity is preserved by dropping entry rows. -/
theorem integrity_entries_subset (db : DB) (l : List Entry) (hInt : Integrity db)
    (hsub : ∀ e ∈ l, e ∈ db.entries) : Integrity { db with entries := l } := by
  intro e he
  exact hInt e (hsub e he)

/-- Helper: integrity is preserved by adding an entry owned by a stored
scribe. -/
theorem integrity_add_entry (db : DB) (entry : Entry) (s : Scribe)
    (hs : s ∈ db.scribes) (hid : entry.scribe_id = s.id) (hInt : Integrity db) :
    Integrity { db with entries := db.entries ++ [entry] } := by
  intro e he
  rcases List.mem_append.mp he with h | h
  · exact hInt e h
  · have he2 : e = entry := by simpa using h
    subst he2
    exact ⟨s, hs, hid.symm⟩

/-- Helper: integrity is preserved by replacing an entry row with one that
keeps its owner. -/
theorem integrity_replace_entry (db : DB) (entry committed : Entry)
    (hmem : entry ∈ db.entries)
    (hsid : committed.scribe_id = entry.scribe_id)
    (hInt : Integrity db) :
    Integrity { db with entries := db.entries.map (fun x => if x.id == entry.id then committed else x) } := by
  intro e he
  obtain ⟨x, hx, hfx⟩ := List.mem_map.mp he
  by_cases hxid : (x.id == entry.id) = true
  · rw [if_pos hxid] at hfx
    subst hfx
    obtain ⟨s, hs, hid⟩ := hInt entry hmem
    exact ⟨s, hs, by rw [hid, hsid]⟩
  · rw [if_neg hxid] at hfx
    subst hfx
    exact hInt x hx

/-- Helper: integrity is preserved by replacing a scribe row with one that
keeps its id. -/
theorem integrity_replace_scribe (db : DB) (scribe committed : Scribe)
    (hid : committed.id = scribe.id) (hInt : Integrity db) :
    Integrity { db with scribes := db.scribes.map (fun o => if o.id == scribe.id then committed else o) } := by
  intro e he
  obtain ⟨s, hs, hsid⟩ := hInt e he
  refine ⟨if (s.id == scribe.id) = true then committed else s,
    List.mem_map_of_mem _ hs, ?_⟩
  by_cases h : (s.id == scribe.id) = true
  · rw [if_pos h]
    have hs2 : s.id = scribe.id := by simpa using h
    rw [hid, ← hs2]
    exact hsid
  · rw [if_neg h]
    exact hsid

/-- Helper: integrity is preserved by the cascade delete of a scribe and
all of its entries. -/
theorem integrity_cascade (db : DB) (scribe : Scribe) (hInt : Integrity db) :
    Integrity { scribes := db.scribes.filter (fun s => s.id != scribe.id), entries := db.entries.filter (fun e => e.scribe_id != scribe.id) } := by
  intro e he
  have hm := List.mem_filter.mp he
  obtain ⟨s, hs, hid⟩ := hInt e hm.1
  refine ⟨s, List.mem_filter.mpr ⟨hs, ?_⟩, hid⟩
  rw [hid]
  exact hm.2

/-- C3: referential integrity (every entry's scribeId names a live scribe)
is preserved by every mutating operation; deleting a scribe cascades to
all of that scribe's entries, and a subsequent GET on any cascade-deleted
entry id yields 404 for every caller. -/
theorem c3_cascade_delete_integrity (db : DB)
    (hInt : Integrity db)
    (hNodup : (db.entries.map Entry.id).Nodup) :
    (∀ data now salt, Integrity (enlist db data now salt).2) ∧
    (∀ auth data now, Integrity (create_entry db auth data now).2) ∧
    (∀ auth eid data now, Integrity (update_entry db auth eid data now).2) ∧
    (∀ auth eid, Integrity (delete_entry db auth eid).2) ∧
    (∀ auth sid data now salt, Integrity (update_scribe db auth sid data now salt).2) ∧
    (∀ auth sid, Integrity (delete_scribe db auth sid).2) ∧
    (∀ auth sid, (delete_scribe db auth sid).1.code = 204 →
      ∀ e ∈ db.entries, e.scribe_id = sid →
        ∀ auth2, (get_entry (delete_scribe db auth sid).2 auth2 e.id).code = 404) := by
  refine ⟨?_, ?_, ?_, ?_, ?_, ?_, ?_⟩
  · intro data now salt
    unfold enlist
    dsimp only
    repeat' split
    all_goals first
      | exact hInt
      | exact integrity_add_scribe db _ hInt
  · intro auth data now
    unfold create_entry
    cases hauth2 : require_auth db auth with
    | error r => exact hInt
    | ok s =>
      dsimp only
      have hmem := require_auth_mem db auth s hauth2
      repeat' split
      all_goals first
        | exact hInt
        | exact integrity_add_entry db _ s hmem rfl hInt
  · intro auth eid data now
    unfold update_entry
    cases hauth2 : require_auth db auth with
    | error r => exact hInt
    | ok s =>
      dsimp only
      cases hget : db.getEntry eid with
      | none => exact hInt
      | some entry =>
        dsimp only
        have hmem : entry ∈ db.entries := List.mem_of_find?_eq_some hget
        repeat' split
        all_goals first
          | exact hInt
          | exact integrity_replace_entry db entry _ hmem
              (by repeat first | rfl | split) hInt
  · intro auth eid
    unfold delete_entry
    repeat' split
    all_goals first
      | exact hInt
      | exact integrity_entries_subset db _ hInt
          (fun e he => List.mem_of_mem_filter he)
  · intro auth sid data now salt
    unfold update_scribe
    cases hauth2 : require_auth db auth with
    | error r => exact hInt
    | ok s =>
      dsimp only
      cases hgs : db.getScribe sid with
      | none => exact hInt
      | some scribe =>
        dsimp only
        repeat' split
        all_goals first
          | exact hInt
          | exact integrity_replace_scribe db scribe _
              (by repeat first | rfl | split) hInt
  · intro auth sid
    unfold delete_scribe
    repeat' split
    all_goals first
      | exact hInt
      | exact integrity_cascade db _ hInt
  · intro auth sid hcode e he hesid auth2
    unfold delete_scribe at hcode ⊢
    cases hauth2 : require_auth db auth with
    | error r =>
      rw [hauth2] at hcode
      dsimp only at hcode
      have := require_auth_error_code db auth r hauth2
      omega
    | ok s =>
      rw [hauth2] at hcode
      dsimp only at hcode ⊢
      cases hgs : db.getScribe sid with
      | none =>
        rw [hgs] at hcode
        dsimp only [scribeNotFound] at hcode
        omega
      | some scribe =>
        rw [hgs] at hcode
        dsimp only at hcode ⊢
        by_cases hoc : (s.id != sid) = true
        · rw [if_pos hoc] at hcode
          dsimp only at hcode
          omega
        · rw [if_neg hoc] at hcode ⊢
          have hscrid : scribe.id = sid := by
            simpa using List.find?_some hgs
          have hnone :
              (db.entries.filter (fun x => x.scribe_id != scribe.id)).find?
                (fun x => x.id == e.id) = none := by
            apply List.find?_eq_none.mpr
            intro x hx
            have hm := List.mem_filter.mp hx
            intro hbeq
            have hxide : x.id = e.id := by simpa using hbeq
            have hxe : x = e :=
              List.inj_on_of_nodup_map hNodup hm.1 he hxide
            subst hxe
            rw [hscrid] at hm
            exact absurd hesid (by simpa using hm.2)
          dsimp only
          unfold get_entry DB.getEntry
          dsimp only
          rw [hnone]
          rfl

/-- C3 witness: at the fixture state (which satisfies integrity and has
distinct entry ids), alice's account deletion cascades: a GET of her
private entry id 10 afterwards is a 404 even for bob. -/
theorem c3_witness :
    Integrity wDB ∧
    (delete_scribe wDB (some wAliceCreds) 1).1.code = 204 ∧
    (get_entry (delete_scribe wDB (some wAliceCreds) 1).2 (some wBobCreds) 10).code
      = 404 := by
  have h := (c3_cascade_delete_integrity wDB
    (by unfold Integrity; decide) (by decide)).2.2.2.2.2.2
  exact ⟨by unfold Integrity; decide, by decide,
    h (some wAliceCreds) 1 (by decide) wPriv (by decide) (by decide)
      (some wBobCreds)⟩

end Logbook
